import Mathlib

set_option maxRecDepth 8192
set_option linter.unusedVariables false

/-
Verification of the prompt-formatting core of the DuckDB-NSQL repository
(src/eval/prompt_formatters.py, src/eval/constants.py).

Strings are modelled with Lean `String` (a wrapper around `List Char`); the
character-level scanning performed by Python `str.replace` is embedded as
structurally recursive functions on `List Char`.  The external `schema`
module (defining the `Table` and `Column` record types) is not part of the
repository sources; its data model is taken from the specification.
-/

/-- The backtick character, written via its code point. -/
def fenceChar : Char := Char.ofNat 96

/-- Python whitespace predicate: the code points for which `str.isspace()`
holds, which is the character class removed by `str.strip()`. -/
def isPySpace (c : Char) : Bool :=
  let n := c.toNat
  (0x09 ≤ n && n ≤ 0x0D) || n == 0x20 || (0x1C ≤ n && n ≤ 0x1F) || n == 0x85 ||
    n == 0xA0 || n == 0x1680 || (0x2000 ≤ n && n ≤ 0x200A) || n == 0x2028 ||
    n == 0x2029 || n == 0x202F || n == 0x205F || n == 0x3000

/-- Python `str.strip()` on the underlying character list: drop whitespace
from the front, then from the back. -/
def pyStripList (l : List Char) : List Char :=
  ((l.dropWhile isPySpace).reverse.dropWhile isPySpace).reverse

/-- Python `str.strip()`. -/
def pyStrip (s : String) : String :=
  ⟨pyStripList s.data⟩

/-- Python `output_sql.replace('```sql\n', '')`, specialised to its pattern:
scan left to right; on a match skip the seven pattern characters and continue
after them, otherwise keep one character and continue. -/
def replaceSqlFence : List Char → List Char
  | c1 :: c2 :: c3 :: c4 :: c5 :: c6 :: c7 :: rest =>
    if c1 = fenceChar ∧ c2 = fenceChar ∧ c3 = fenceChar ∧ c4 = 's' ∧ c5 = 'q' ∧
        c6 = 'l' ∧ c7 = '\n' then
      replaceSqlFence rest
    else
      c1 :: replaceSqlFence (c2 :: c3 :: c4 :: c5 :: c6 :: c7 :: rest)
  | l => l

/-- Python `.replace('```duckdb\n', '')`, specialised to its ten-character
pattern in the same way. -/
def replaceDuckdbFence : List Char → List Char
  | c1 :: c2 :: c3 :: c4 :: c5 :: c6 :: c7 :: c8 :: c9 :: c10 :: rest =>
    if c1 = fenceChar ∧ c2 = fenceChar ∧ c3 = fenceChar ∧ c4 = 'd' ∧ c5 = 'u' ∧
        c6 = 'c' ∧ c7 = 'k' ∧ c8 = 'd' ∧ c9 = 'b' ∧ c10 = '\n' then
      replaceDuckdbFence rest
    else
      c1 :: replaceDuckdbFence (c2 :: c3 :: c4 :: c5 :: c6 :: c7 :: c8 :: c9 :: c10 :: rest)
  | l => l

/-- Python `.replace('```\n', '')`, specialised to its four-character pattern. -/
def replaceFenceNl : List Char → List Char
  | c1 :: c2 :: c3 :: c4 :: rest =>
    if c1 = fenceChar ∧ c2 = fenceChar ∧ c3 = fenceChar ∧ c4 = '\n' then
      replaceFenceNl rest
    else
      c1 :: replaceFenceNl (c2 :: c3 :: c4 :: rest)
  | l => l

/-- Python `.replace('```', '')`, specialised to its three-character pattern. -/
def replaceFence : List Char → List Char
  | c1 :: c2 :: c3 :: rest =>
    if c1 = fenceChar ∧ c2 = fenceChar ∧ c3 = fenceChar then
      replaceFence rest
    else
      c1 :: replaceFence (c2 :: c3 :: rest)
  | l => l

/-- The cleaning pipeline of `RajkumarFormatter.format_model_output`
(src/eval/prompt_formatters.py lines 68-72): the four fence replacements in
source order followed by `str.strip()`. -/
def cleanModelOutput (output_sql : String) : String :=
  ⟨pyStripList (replaceFence (replaceFenceNl (replaceDuckdbFence
      (replaceSqlFence output_sql.data))))⟩

/-- Python `clean_sql.endswith(";")`: the last character is a semicolon. -/
def endsWithSemi (s : String) : Bool :=
  s.data.getLast? == some ';'

/-- The `;`-counting observation used to state the round-trip claim: the
string is non-empty, ends in `;`, and its second-to-last character is not
another `;`. -/
def endsInOneSemi (s : String) : Bool :=
  (s.data.getLast? == some ';') && !(s.data.dropLast.getLast? == some ';')

/-- `RajkumarFormatter.format_model_output` (src/eval/prompt_formatters.py
lines 65-80): clean the fences, strip whitespace, and append a final `;`
exactly when the cleaned text does not already end in one.  The source also
computes `clean_sql[:clean_sql.find(';')].strip()` on line 75 but discards
the value, so no truncation at the first `;` takes place; the `prompt`
argument is likewise unused. -/
def RajkumarFormatter.format_model_output (output_sql prompt : String) : String :=
  let clean_sql := cleanModelOutput output_sql
  if endsWithSemi clean_sql then clean_sql else clean_sql ++ ";"

/-- A database column.  Modelled from the spec: the `schema` module that
defines this record is external to the repository sources; spec §3 gives
"name (string) and optional dtype (string)". -/
structure Column where
  name : String
  dtype : Option String
  deriving DecidableEq

/-- A database table.  Modelled from the spec: "a name (string) and an
ordered sequence of Column".  The column list is optional because the code
guards every use with `table.columns or []`. -/
structure Table where
  name : String
  columns : Option (List Column)
  deriving DecidableEq

/-- Python `col.dtype or 'any'`: both `None` and the empty string are falsy,
so either is replaced by the fallback. -/
def pyOr (v : Option String) (fallback : String) : String :=
  match v with
  | some s => if s = "" then fallback else s
  | none => fallback

/-- One line of the loop body in `RajkumarFormatter.format_table`:
`f"    {col.name} {col.dtype or 'any'}"`. -/
def formatColumn (col : Column) : String :=
  "    " ++ col.name ++ " " ++ pyOr col.dtype "any"

/-- `RajkumarFormatter.format_table` (src/eval/prompt_formatters.py lines
20-32): one rendered line per column of `table.columns or []`; if any lines
were produced, join them with `",\n"` inside a `CREATE TABLE` header,
otherwise produce the bare header. -/
def RajkumarFormatter.format_table (table : Table) : String :=
  let table_fmt := (table.columns.getD []).map formatColumn
  if table_fmt.isEmpty then
    "CREATE TABLE " ++ table.name
  else
    "CREATE TABLE " ++ table.name ++ " (\n" ++ String.intercalate ",\n" table_fmt ++ "\n)"

/-- Modelled from the spec: the third cache-key component is "a deterministic
string serialization of the table list" (Python `str(tables)`, whose exact
text comes from the repr of the external `schema.Table` class).  Any
deterministic structural serialization captures it. -/
def serializeTables (tables : List Table) : String :=
  "[" ++ String.intercalate ", " (tables.map fun t =>
    "Table(" ++ t.name ++ ", [" ++ String.intercalate ", "
      ((t.columns.getD []).map fun c => c.name ++ ":" ++ c.dtype.getD "None") ++ "])") ++ "]"

/-- The class-level memoization table `RajkumarFormatter._cache`, embedded as
an explicit mapping from keys to stored renderings. -/
abbrev Cache := String × String × String → Option (List String)

/-- The empty cache (start-of-process state). -/
def emptyCache : Cache := fun _ => none

/-- `RajkumarFormatter.format_all_tables` (src/eval/prompt_formatters.py
lines 34-44), with the two effects made explicit: `random.shuffle` becomes
the function argument `shuffleFn` (an arbitrary reordering chosen by the
caller of the embedding), and the mutation of the class-level `_cache`
becomes an explicit cache-in/cache-out state pass.  On a cache miss the
freshly shuffled rendering is stored under the key
`("tables", instruction, str(tables))` and returned; on a hit the stored
rendering is returned and the cache is unchanged. -/
def RajkumarFormatter.format_all_tables (shuffleFn : List String → List String)
    (cache : Cache) (tables : List Table) (instruction : String) :
    List String × Cache :=
  let table_texts := tables.map RajkumarFormatter.format_table
  let key : String × String × String := ("tables", instruction, serializeTables tables)
  match cache key with
  | some stored => (stored, cache)
  | none =>
    let shuffled := shuffleFn table_texts
    (shuffled, fun k => if k = key then some shuffled else cache k)

/-- `RajkumarFormatter.format_retrieved_context` (src/eval/prompt_formatters.py
lines 46-53): join the chunks with the separator line and wrap them in the
fixed comment block. -/
def RajkumarFormatter.format_retrieved_context (context : List String) : String :=
  let context_str := String.intercalate "\n--------\n" context
  "\n\n/*\nHere is additional documentation about DuckDB that could be useful.\n--------\n"
    ++ context_str ++ "\n--------\n*/"

/-- `DuckDBInstFormatter.format_prompt` (src/eval/prompt_formatters.py lines
117-140): the `### Input:` body is the schema sentence plus `table_text`
when `table_text` is non-empty and empty otherwise, and the instruction
clause ends in `"."` exactly when `table_text` is empty. -/
def DuckDBInstFormatter.format_prompt (instruction table_text context_text : String) : String :=
  let inp := if table_text = "" then ""
    else "Here is the database schema that the SQL query will run on:\n" ++ table_text ++ "\n"
  let instr := "Your task is to generate valid duckdb SQL to answer the following question"
    ++ (if table_text = "" then "." else ", given a duckdb database schema.")
  "### Instruction:\n" ++ instr ++ "\n\n### Input:\n" ++ inp ++ context_text
    ++ "\n### Question:\n" ++ instruction
    ++ "\n\n### Response (use duckdb shorthand if possible):\n"

/-- `RajkumarFormatter.format_gold_output` (src/eval/prompt_formatters.py
lines 82-85): returns its argument.  Every variant except `DuckDBChat`
inherits this definition. -/
def RajkumarFormatter.format_gold_output (output_sql : String) : String :=
  output_sql

/-- `DuckDBChat.format_gold_output` (src/eval/prompt_formatters.py lines
1040-1043): returns its argument. -/
def DuckDBChat.format_gold_output (output_sql : String) : String :=
  output_sql

/-- The concrete table of the spec's §8 scenario. -/
def ordersTable : Table :=
  ⟨"orders", some [⟨"id", some "INTEGER"⟩, ⟨"amount", some "DOUBLE"⟩]⟩

/-- Whether three consecutive backticks occur anywhere in the character
list, i.e. whether the string contains the fence marker as a substring
(see `hasTriple_iff`). -/
def hasTriple : List Char → Bool
  | c1 :: c2 :: c3 :: rest =>
    (c1 == fenceChar && (c2 == fenceChar && c3 == fenceChar)) || hasTriple (c2 :: c3 :: rest)
  | _ => false

/-- Whether the list begins with a backtick. -/
def startsBt : List Char → Bool
  | c :: _ => c == fenceChar
  | [] => false

/-- Whether the list begins with two backticks. -/
def startsTwoBt : List Char → Bool
  | c1 :: c2 :: _ => c1 == fenceChar && c2 == fenceChar
  | _ => false

theorem startsTwoBt_cons (c : Char) (l : List Char) :
    startsTwoBt (c :: l) = (c == fenceChar && startsBt l) := by
  cases l <;> simp [startsTwoBt, startsBt]

theorem hasTriple_cons (c : Char) (l : List Char) :
    hasTriple (c :: l) = ((c == fenceChar && startsTwoBt l) || hasTriple l) := by
  match l with
  | [] => simp [hasTriple, startsTwoBt]
  | [x] => simp [hasTriple, startsTwoBt]
  | x :: y :: rest => simp [hasTriple, startsTwoBt, Bool.and_assoc]

theorem startsBt_replaceFence (l : List Char) (h : startsBt l = false) :
    startsBt (replaceFence l) = false := by
  match l with
  | [] => simpa [replaceFence] using h
  | [c] => simpa [replaceFence] using h
  | [c1, c2] => simpa [replaceFence] using h
  | c1 :: c2 :: c3 :: rest =>
    simp only [startsBt, beq_eq_false_iff_ne, ne_eq] at h
    simp [replaceFence, startsBt, h]

theorem startsTwoBt_replaceFence (l : List Char) (h : startsTwoBt l = false) :
    startsTwoBt (replaceFence l) = false := by
  match l with
  | [] => simpa [replaceFence] using h
  | [c] => simp [replaceFence, startsTwoBt]
  | [c1, c2] => simpa [replaceFence] using h
  | c1 :: c2 :: c3 :: rest =>
    simp only [startsTwoBt, Bool.and_eq_false_iff, beq_eq_false_iff_ne, ne_eq] at h
    by_cases h1 : c1 = fenceChar
    · have h2 : ¬ c2 = fenceChar := by tauto
      have hb : startsBt (c2 :: c3 :: rest) = false := by simp [startsBt, h2]
      have hb' := startsBt_replaceFence _ hb
      rw [replaceFence, if_neg (by tauto)]
      rw [startsTwoBt_cons]
      simp [hb']
    · rw [replaceFence, if_neg (by tauto)]
      rw [startsTwoBt_cons]
      simp [h1]

theorem hasTriple_replaceFence_of_le :
    ∀ n l, List.length l ≤ n → hasTriple (replaceFence l) = false := by
  intro n
  induction n with
  | zero =>
    intro l hl
    have : l = [] := List.length_eq_zero.mp (Nat.le_zero.mp hl)
    subst this
    simp [replaceFence, hasTriple]
  | succ n ih =>
    intro l hl
    match l with
    | [] => simp [replaceFence, hasTriple]
    | [c] => simp [replaceFence, hasTriple]
    | [c1, c2] => simp [replaceFence, hasTriple]
    | c1 :: c2 :: c3 :: rest =>
      by_cases htrip : c1 = fenceChar ∧ c2 = fenceChar ∧ c3 = fenceChar
      · rw [replaceFence, if_pos htrip]
        exact ih rest (by simp at hl ⊢; omega)
      · rw [replaceFence, if_neg htrip]
        have htail : hasTriple (replaceFence (c2 :: c3 :: rest)) = false :=
          ih (c2 :: c3 :: rest) (by simp at hl ⊢; omega)
        rw [hasTriple_cons]
        by_cases h1 : c1 = fenceChar
        · have h23 : ¬ (c2 = fenceChar ∧ c3 = fenceChar) := by tauto
          have hs : startsTwoBt (c2 :: c3 :: rest) = false := by
            simp only [startsTwoBt, Bool.and_eq_false_iff, beq_eq_false_iff_ne, ne_eq]
            tauto
          have hs' := startsTwoBt_replaceFence _ hs
          simp [hs', htail]
        · simp [h1, htail]

theorem hasTriple_replaceFence (l : List Char) : hasTriple (replaceFence l) = false :=
  hasTriple_replaceFence_of_le l.length l (Nat.le_refl _)

/-- The boolean `hasTriple` decides occurrence of the three-backtick marker
as a substring. -/
theorem hasTriple_iff (l : List Char) :
    hasTriple l = true ↔ ∃ a b, l = a ++ fenceChar :: fenceChar :: fenceChar :: b := by
  induction l with
  | nil =>
    simp only [hasTriple]
    constructor
    · intro h; cases h
    · rintro ⟨a, b, h⟩
      exact absurd (congrArg List.length h) (by simp; omega)
  | cons c l ih =>
    rw [hasTriple_cons]
    constructor
    · intro h
      rcases Bool.or_eq_true_iff.mp h with h | h
      · have hc : c = fenceChar := by
          have := Bool.and_eq_true_iff.mp h
          exact beq_iff_eq.mp this.1
        have hs : startsTwoBt l = true := (Bool.and_eq_true_iff.mp h).2
        match l, hs with
        | x :: y :: rest, hs =>
          have hx : x = fenceChar := beq_iff_eq.mp (Bool.and_eq_true_iff.mp hs).1
          have hy : y = fenceChar := beq_iff_eq.mp (Bool.and_eq_true_iff.mp hs).2
          exact ⟨[], rest, by simp [hc, hx, hy]⟩
      · obtain ⟨a, b, hab⟩ := ih.mp h
        exact ⟨c :: a, b, by simp [hab]⟩
    · rintro ⟨a, b, hab⟩
      match a, hab with
      | [], hab =>
        obtain ⟨hc, hl⟩ : c = fenceChar ∧ l = fenceChar :: fenceChar :: b := by
          constructor
          · exact (List.cons.injEq _ _ _ _ ▸ hab).1
          · exact (List.cons.injEq _ _ _ _ ▸ hab).2
        subst hc
        apply Bool.or_eq_true_iff.mpr
        left
        subst hl
        simp [startsTwoBt]
      | x :: a, hab =>
        have hl : l = a ++ fenceChar :: fenceChar :: fenceChar :: b :=
          (List.cons.injEq _ _ _ _ ▸ hab).2
        apply Bool.or_eq_true_iff.mpr
        right
        exact ih.mpr ⟨a, b, hl⟩

theorem hasTriple_of_inner (a u b : List Char) (h : hasTriple u = true) :
    hasTriple (a ++ u ++ b) = true := by
  obtain ⟨x, y, hxy⟩ := (hasTriple_iff u).mp h
  apply (hasTriple_iff _).mpr
  exact ⟨a ++ x, y ++ b, by simp [hxy]⟩

theorem hasTriple_inner_false (a u b : List Char)
    (h : hasTriple (a ++ u ++ b) = false) : hasTriple u = false := by
  cases hu : hasTriple u with
  | false => rfl
  | true => rw [hasTriple_of_inner a u b hu] at h; cases h

theorem hasTriple_reverse (l : List Char) : hasTriple l.reverse = hasTriple l := by
  have key : ∀ m : List Char, hasTriple m = true → hasTriple m.reverse = true := by
    intro m hm
    obtain ⟨a, b, hab⟩ := (hasTriple_iff m).mp hm
    apply (hasTriple_iff _).mpr
    refine ⟨b.reverse, a.reverse, ?_⟩
    subst hab
    simp
  cases h : hasTriple l with
  | true => exact key l h
  | false =>
    cases h' : hasTriple l.reverse with
    | false => rfl
    | true =>
      have := key l.reverse h'
      rw [List.reverse_reverse] at this
      rw [this] at h
      cases h

theorem hasTriple_dropWhile (p : Char → Bool) (l : List Char)
    (h : hasTriple l = false) : hasTriple (l.dropWhile p) = false := by
  apply hasTriple_inner_false (l.takeWhile p) (l.dropWhile p) []
  rw [List.append_nil, List.takeWhile_append_dropWhile]
  exact h

theorem hasTriple_pyStripList (l : List Char) (h : hasTriple l = false) :
    hasTriple (pyStripList l) = false := by
  unfold pyStripList
  rw [hasTriple_reverse]
  apply hasTriple_dropWhile
  rw [hasTriple_reverse]
  exact hasTriple_dropWhile _ _ h

theorem hasTriple_concat (l : List Char) (c : Char) (hc : c ≠ fenceChar)
    (h : hasTriple l = false) : hasTriple (l ++ [c]) = false := by
  rw [← hasTriple_reverse, List.reverse_append, List.reverse_singleton,
    List.singleton_append, hasTriple_cons, hasTriple_reverse, h]
  simp [hc]

theorem hasTriple_cleanModelOutput (s : String) :
    hasTriple (cleanModelOutput s).data = false := by
  show hasTriple (pyStripList (replaceFence _)) = false
  exact hasTriple_pyStripList _ (hasTriple_replaceFence _)

/-- Claim C1 is refuted as stated: an input whose cleaned text already ends
in two statement terminators does not yield exactly one.  On the fenced
input whose body is `SELECT 1;;`, `format_model_output` returns
`SELECT 1;;`, whose last two characters are both `;`. -/
theorem format_model_output_two_semicolons :
    RajkumarFormatter.format_model_output "```sql\nSELECT 1;;\n```" "" = "SELECT 1;;"
    ∧ endsInOneSemi
        (RajkumarFormatter.format_model_output "```sql\nSELECT 1;;\n```" "") = false := by
  constructor <;> decide

/-- Claim C1 (amended): for every output string, `format_model_output`
returns text ending in a statement terminator `;`; a terminator is appended
exactly when the cleaned (fence-stripped, trimmed) text does not already end
in one, so cleaned text already ending in one or more terminators is
returned unchanged; concretely,
`format_model_output("```sql\nSELECT 1\n```", prompt)` yields `SELECT 1;`. -/
theorem format_model_output_terminator (s p : String) :
    (RajkumarFormatter.format_model_output s p).data.getLast? = some ';'
    ∧ (endsWithSemi (cleanModelOutput s) = false →
        RajkumarFormatter.format_model_output s p = cleanModelOutput s ++ ";")
    ∧ RajkumarFormatter.format_model_output "```sql\nSELECT 1\n```" p = "SELECT 1;" := by
  refine ⟨?_, ?_, ?_⟩
  · unfold RajkumarFormatter.format_model_output
    cases he : endsWithSemi (cleanModelOutput s) with
    | true =>
      rw [if_pos he]
      simpa [endsWithSemi] using he
    | false =>
      rw [if_neg (by simp [he]), String.data_append]
      simp [show (";" : String).data = [';'] from rfl]
  · intro h
    simp [RajkumarFormatter.format_model_output, h]
  · rfl

/-- Claim C1 amended-theorem witness at a concrete input. -/
theorem format_model_output_terminator_witness :
    (RajkumarFormatter.format_model_output "SELECT 2" "p").data.getLast? = some ';'
    ∧ RajkumarFormatter.format_model_output "SELECT 2" "p" = cleanModelOutput "SELECT 2" ++ ";"
    ∧ RajkumarFormatter.format_model_output "```sql\nSELECT 1\n```" "p" = "SELECT 1;" := by
  have h := format_model_output_terminator "SELECT 2" "p"
  exact ⟨h.1, h.2.1 (by decide), h.2.2⟩

/-- Claim C2: the base `format_model_output` does not remove trailing
content after the first statement terminator.  Whenever the cleaned
(fence-stripped, trimmed) text decomposes as `pre ++ ";" ++ post`, the
returned string is that very text, possibly extended by one final appended
terminator — the trailing text `post` is still present unchanged, because
the truncation computed on line 75 of the source is discarded. -/
theorem format_model_output_keeps_tail (s p pre post : String)
    (h : cleanModelOutput s = pre ++ ";" ++ post) :
    ∃ t, (t = "" ∨ t = ";") ∧
      RajkumarFormatter.format_model_output s p = pre ++ ";" ++ post ++ t := by
  unfold RajkumarFormatter.format_model_output
  cases he : endsWithSemi (cleanModelOutput s) with
  | true =>
    refine ⟨"", Or.inl rfl, ?_⟩
    rw [if_pos he, h, String.append_empty]
  | false =>
    refine ⟨";", Or.inr rfl, ?_⟩
    rw [if_neg (by simp [he]), h]

/-- Claim C2 witness: a cleaned text containing `;` followed by further
text keeps the trailing text. -/
theorem format_model_output_keeps_tail_witness :
    ∃ t, (t = "" ∨ t = ";") ∧
      RajkumarFormatter.format_model_output "SELECT 1; SELECT 2" "p"
        = "SELECT 1" ++ ";" ++ " SELECT 2" ++ t :=
  format_model_output_keeps_tail "SELECT 1; SELECT 2" "p" "SELECT 1" " SELECT 2" (by decide)

/-- Claim C3: repeated calls of `format_all_tables` with structurally
identical arguments return the same ordered rendering both times even when
the second call would shuffle differently (`sh2`), because the first call
stores its shuffled order under the key
`("tables", instruction, serialized table list)` and the second call
returns the stored order verbatim; moreover, when the key is absent the
first call returns exactly its freshly shuffled rendering. -/
theorem format_all_tables_memoized (sh1 sh2 : List String → List String)
    (cache : Cache) (tables : List Table) (instruction : String) :
    (RajkumarFormatter.format_all_tables sh2
        (RajkumarFormatter.format_all_tables sh1 cache tables instruction).2
        tables instruction).1
      = (RajkumarFormatter.format_all_tables sh1 cache tables instruction).1
    ∧ (cache ("tables", instruction, serializeTables tables) = none →
        (RajkumarFormatter.format_all_tables sh1 cache tables instruction).1
          = sh1 (tables.map RajkumarFormatter.format_table)) := by
  unfold RajkumarFormatter.format_all_tables
  cases hc : cache ("tables", instruction, serializeTables tables) with
  | some stored => simp [hc]
  | none => simp [hc]

/-- Claim C3 witness: two concrete calls with identical arguments, the
first shuffling by reversal and the second with a different (identity)
shuffle, agree, and the first call returns its shuffled rendering. -/
theorem format_all_tables_memoized_witness :
    (RajkumarFormatter.format_all_tables id
        (RajkumarFormatter.format_all_tables List.reverse emptyCache
          [ordersTable, ⟨"t", none⟩] "q").2
        [ordersTable, ⟨"t", none⟩] "q").1
      = (RajkumarFormatter.format_all_tables List.reverse emptyCache
          [ordersTable, ⟨"t", none⟩] "q").1
    ∧ (RajkumarFormatter.format_all_tables List.reverse emptyCache
          [ordersTable, ⟨"t", none⟩] "q").1
      = List.reverse ([ordersTable, ⟨"t", none⟩].map RajkumarFormatter.format_table) := by
  have h := format_all_tables_memoized List.reverse id emptyCache
    [ordersTable, ⟨"t", none⟩] "q"
  exact ⟨h.1, h.2 rfl⟩

/-- Claim C4: for every table with at least one column, `format_table`
returns exactly the `CREATE TABLE <name> (` header, a newline, one line per
column made of four spaces, the column name, a space and the dtype (or the
catchall token `any` when the dtype is absent), consecutive lines joined by
`",\n"`, then a newline and `)`; concretely the `orders` table renders as
`CREATE TABLE orders (\n    id INTEGER,\n    amount DOUBLE\n)`. -/
theorem format_table_layout (t : Table) :
    ((t.columns.getD []) ≠ [] →
      RajkumarFormatter.format_table t
        = "CREATE TABLE " ++ t.name ++ " (\n"
          ++ String.intercalate ",\n" ((t.columns.getD []).map fun c =>
              "    " ++ c.name ++ " " ++ pyOr c.dtype "any") ++ "\n)")
    ∧ RajkumarFormatter.format_table ordersTable
        = "CREATE TABLE orders (\n    id INTEGER,\n    amount DOUBLE\n)" := by
  constructor
  · intro h
    have hmap : ((t.columns.getD []).map fun c =>
        "    " ++ c.name ++ " " ++ pyOr c.dtype "any")
        = (t.columns.getD []).map formatColumn := rfl
    rw [hmap]
    unfold RajkumarFormatter.format_table
    have hne : ((t.columns.getD []).map formatColumn).isEmpty = false := by
      cases hcs : t.columns.getD [] with
      | nil => exact absurd hcs h
      | cons a as => simp
    simp [hne]
  · decide

/-- Claim C4 witness at the `orders` table. -/
theorem format_table_layout_witness :
    RajkumarFormatter.format_table ordersTable
      = "CREATE TABLE " ++ ordersTable.name ++ " (\n"
        ++ String.intercalate ",\n" ((ordersTable.columns.getD []).map fun c =>
            "    " ++ c.name ++ " " ++ pyOr c.dtype "any") ++ "\n)" :=
  (format_table_layout ordersTable).1 (by decide)

/-- Claim C5: a zero-column table renders as the bare parenthesis-free
declaration `CREATE TABLE <name>`, and a table with a non-empty column list
renders every column exactly once, in input order, inside the parentheses
(the body is the `",\n"`-join of the per-column lines in input order). -/
theorem format_table_column_structure (t : Table) :
    ((t.columns.getD []) = [] →
      RajkumarFormatter.format_table t = "CREATE TABLE " ++ t.name)
    ∧ ((t.columns.getD []) ≠ [] →
      RajkumarFormatter.format_table t
        = "CREATE TABLE " ++ t.name ++ " (\n"
          ++ String.intercalate ",\n" ((t.columns.getD []).map formatColumn) ++ "\n)") := by
  constructor
  · intro h
    unfold RajkumarFormatter.format_table
    simp [h]
  · intro h
    unfold RajkumarFormatter.format_table
    have hne : ((t.columns.getD []).map formatColumn).isEmpty = false := by
      cases hcs : t.columns.getD [] with
      | nil => exact absurd hcs h
      | cons a as => simp
    simp [hne]

/-- Claim C5 witness: a zero-column table and a two-column table. -/
theorem format_table_column_structure_witness :
    RajkumarFormatter.format_table ⟨"t0", none⟩ = "CREATE TABLE " ++ "t0"
    ∧ RajkumarFormatter.format_table ordersTable
      = "CREATE TABLE " ++ ordersTable.name ++ " (\n"
        ++ String.intercalate ",\n" ((ordersTable.columns.getD []).map formatColumn) ++ "\n)" :=
  ⟨(format_table_column_structure ⟨"t0", none⟩).1 rfl,
   (format_table_column_structure ordersTable).2 (by decide)⟩

/-- Claim C6: a column whose dtype is missing (absent or empty) renders with
the catchall token `any`, and `format_table` — a total Lean function over
arbitrary tables with optional dtypes — renders such a column's line with
`any` inside the table declaration; no error is possible. -/
theorem format_table_missing_dtype (c : Column)
    (h : c.dtype = none ∨ c.dtype = some "") :
    formatColumn c = "    " ++ c.name ++ " any"
    ∧ ∀ nm : String, RajkumarFormatter.format_table ⟨nm, some [c]⟩
        = "CREATE TABLE " ++ nm ++ " (\n" ++ ("    " ++ c.name ++ " any") ++ "\n)" := by
  have hc : pyOr c.dtype "any" = "any" := by
    rcases h with h | h <;> simp [pyOr, h]
  have hline : formatColumn c = "    " ++ c.name ++ " any" := by
    unfold formatColumn
    rw [hc, String.append_assoc]
    exact congrArg (fun z => "    " ++ c.name ++ z) (by decide)
  refine ⟨hline, fun nm => ?_⟩
  unfold RajkumarFormatter.format_table
  simp only [Option.getD_some, List.map_cons, List.map_nil, List.isEmpty_cons,
    Bool.false_eq_true, if_false]
  rw [show String.intercalate ",\n" [formatColumn c] = formatColumn c from rfl, hline]

/-- Claim C6 witness at a column with absent dtype. -/
theorem format_table_missing_dtype_witness :
    formatColumn ⟨"flag", none⟩ = "    " ++ "flag" ++ " any"
    ∧ RajkumarFormatter.format_table ⟨"t", some [⟨"flag", none⟩]⟩
      = "CREATE TABLE " ++ "t" ++ " (\n" ++ ("    " ++ "flag" ++ " any") ++ "\n)" := by
  have h := format_table_missing_dtype ⟨"flag", none⟩ (Or.inl rfl)
  exact ⟨h.1, h.2 "t"⟩

/-- Claim C7: on the empty context sequence the base
`format_retrieved_context` still returns the non-empty wrapper: the comment
block opener, the documentation sentence, the two separator lines enclosing
an empty body, and the closer. -/
theorem format_retrieved_context_empty :
    RajkumarFormatter.format_retrieved_context []
      = "\n\n/*\nHere is additional documentation about DuckDB that could be useful.\n--------\n\n--------\n*/"
    ∧ RajkumarFormatter.format_retrieved_context [] ≠ "" := by
  constructor <;> decide

/-- Claim C8: in the `duckdbinst` variant, an empty `table_text` omits the
schema block (the `### Input:` body is just the context) and ends the
instruction clause with `"."`, while a non-empty `table_text` inserts the
schema sentence followed by `table_text` and ends the instruction clause
with `", given a duckdb database schema."`. -/
theorem duckdbinst_format_prompt_schema (i c tt : String) :
    (tt = "" →
      DuckDBInstFormatter.format_prompt i tt c
        = "### Instruction:\nYour task is to generate valid duckdb SQL to answer the following question.\n\n### Input:\n"
          ++ c ++ "\n### Question:\n" ++ i
          ++ "\n\n### Response (use duckdb shorthand if possible):\n")
    ∧ (tt ≠ "" →
      DuckDBInstFormatter.format_prompt i tt c
        = "### Instruction:\nYour task is to generate valid duckdb SQL to answer the following question, given a duckdb database schema.\n\n### Input:\nHere is the database schema that the SQL query will run on:\n"
          ++ tt ++ "\n" ++ c ++ "\n### Question:\n" ++ i
          ++ "\n\n### Response (use duckdb shorthand if possible):\n") := by
  constructor
  · intro h
    subst h
    rfl
  · intro h
    simp only [DuckDBInstFormatter.format_prompt, if_neg h]
    rw [show ("### Instruction:\nYour task is to generate valid duckdb SQL to answer the following question, given a duckdb database schema.\n\n### Input:\nHere is the database schema that the SQL query will run on:\n" : String)
        = "### Instruction:\n"
          ++ ("Your task is to generate valid duckdb SQL to answer the following question"
              ++ ", given a duckdb database schema.")
          ++ "\n\n### Input:\n"
          ++ "Here is the database schema that the SQL query will run on:\n" from rfl]
    simp only [String.append_assoc]

/-- Claim C8 witness at concrete empty and non-empty schema texts. -/
theorem duckdbinst_format_prompt_schema_witness :
    DuckDBInstFormatter.format_prompt "q" "" ""
      = "### Instruction:\nYour task is to generate valid duckdb SQL to answer the following question.\n\n### Input:\n"
        ++ "" ++ "\n### Question:\n" ++ "q"
        ++ "\n\n### Response (use duckdb shorthand if possible):\n"
    ∧ DuckDBInstFormatter.format_prompt "q" "CREATE TABLE t" ""
      = "### Instruction:\nYour task is to generate valid duckdb SQL to answer the following question, given a duckdb database schema.\n\n### Input:\nHere is the database schema that the SQL query will run on:\n"
        ++ "CREATE TABLE t" ++ "\n" ++ "" ++ "\n### Question:\n" ++ "q"
        ++ "\n\n### Response (use duckdb shorthand if possible):\n" :=
  ⟨(duckdbinst_format_prompt_schema "q" "" "").1 rfl,
   (duckdbinst_format_prompt_schema "q" "" "CREATE TABLE t").2 (by decide)⟩

/-- Claim C9: the gold-output transform is the identity for every string,
both in the base formatter (inherited by all non-chat variants) and in the
chat variant. -/
theorem format_gold_output_identity (x : String) :
    RajkumarFormatter.format_gold_output x = x ∧ DuckDBChat.format_gold_output x = x :=
  ⟨rfl, rfl⟩

/-- Claim C10: for every input string the base `format_model_output` returns
a string containing no occurrence of the three-backtick fence marker: the
replacement passes delete every fence spelling anywhere in the input
(`hasTriple` decides substring occurrence of the marker, see
`hasTriple_iff`). -/
theorem format_model_output_no_fence (s p : String) :
    hasTriple (RajkumarFormatter.format_model_output s p).data = false := by
  unfold RajkumarFormatter.format_model_output
  cases he : endsWithSemi (cleanModelOutput s) with
  | true =>
    rw [if_pos he]
    exact hasTriple_cleanModelOutput s
  | false =>
    rw [if_neg (by simp [he]), String.data_append]
    exact hasTriple_concat _ _ (by decide) (hasTriple_cleanModelOutput s)
